import Mathlib

/-!
# Verification of the minimal MQTT broker (`simple_mqtt_broker.py`)

Shallow embedding of `SimpleMQTTBroker`: the packet decoder/encoder, the
per-packet dispatch of `handle_client`, the fan-out of `forward_message`,
and the disconnect cleanup.  Topics and packet bodies are modelled as lists
of byte values (`List Nat`): Python's `bytes.decode('utf-8')` on topic
bytes (source lines 55 and 88) succeeds exactly on well-formed UTF-8
(modelled by `isValidUtf8`), and on success re-encoding the decoded string
returns the same bytes, so topics are kept as their byte sequences and the
decode is modelled as a validity check whose failure raises — closing the
session with no further state change.  The Python dicts
`self.clients` and `self.subscriptions` preserve insertion order, so they
are modelled as insertion-ordered lists (the registry value — the writer —
is identified by the client id it belongs to).  Stream writes and the
logging of per-subscriber write failures are modelled as an event list; a
Python exception escaping a packet handler (which moves the session to its
cleanup path) is modelled by the `closed` flag of a step result.
-/

namespace SimpleMQTTBroker

abbrev Bytes := List Nat

abbrev ClientId := String

/-- The broker's shared mutable state: the Client Registry (`self.clients`,
keys in insertion order), the Subscription Directory (`self.subscriptions`,
topic bytes ↦ insertion-ordered subscriber list), and the diagnostic
message counter (`self.message_count`). -/
structure BrokerState where
  clients : List ClientId
  subscriptions : List (Bytes × List ClientId)
  messageCount : Nat
deriving Repr, DecidableEq

/-- Writes observable on client streams: a successful write of a packet to a
client's stream, or the logged failure of one fan-out write
(`print(f"Failed to forward to {client_id}")`). -/
inductive OutEvent where
  | write (dest : ClientId) (packet : Bytes)
  | failLog (dest : ClientId)
deriving Repr, DecidableEq

/-- Result of handling one inbound packet: the broker state afterwards, the
stream writes performed, and whether an exception escaped the handler
(moving the session to its `finally` cleanup). -/
structure StepResult where
  state : BrokerState
  events : List OutEvent
  closed : Bool
deriving Repr, DecidableEq

/-- Fixed-header decode (lines 32–38): exactly two header bytes; byte 0's
high nibble is the packet type, byte 1 is taken verbatim as the remaining
length.  A short or empty read ends the session (`none`). -/
def decodeFixedHeader (header : Bytes) : Option (Nat × Nat) :=
  match header with
  | [b0, b1] => some (b0 / 16, b1)
  | _ => none

/-- CONNACK bytes (line 46): `bytes([0x20, 0x02, 0x00, 0x00])`. -/
def connackBytes : Bytes := [0x20, 0x02, 0x00, 0x00]

/-- SUBACK bytes (lines 80–81): type byte, length 3, packet id high and low
bytes, granted QoS 0. -/
def subackBytes (pid : Nat) : Bytes :=
  [0x90, 0x03, pid / 256 % 256, pid % 256, 0x00]

/-- PINGRESP bytes (line 97): `bytes([0xD0, 0x00])`. -/
def pingrespBytes : Bytes := [0xD0, 0x00]

/-- `self.clients[client_id] = writer` (line 50): dict insert; an existing
key keeps its position, a new key is appended. -/
def registerClient (clients : List ClientId) (cid : ClientId) : List ClientId :=
  if cid ∈ clients then clients else clients ++ [cid]

/-- Lines 90–92: `if topic not in self.subscriptions: self.subscriptions[topic] = []`
then `self.subscriptions[topic].append(client_id)` — append to the entry of
`topic` if present, otherwise add a fresh entry at the end. -/
def subAppend : List (Bytes × List ClientId) → Bytes → ClientId →
    List (Bytes × List ClientId)
  | [], topic, cid => [(topic, [cid])]
  | (t, l) :: rest, topic, cid =>
      if t = topic then (t, l ++ [cid]) :: rest
      else (t, l) :: subAppend rest topic cid

/-- Dict lookup `self.subscriptions[topic]` / membership test
`topic in self.subscriptions`. -/
def lookupSubs : List (Bytes × List ClientId) → Bytes → Option (List ClientId)
  | [], _ => none
  | (t, l) :: rest, topic => if t = topic then some l else lookupSubs rest topic

/-- Python `list.remove(x)` guarded by `if x in l`: removes the FIRST
occurrence only, identity when absent (lines 110–112, per topic). -/
def removeFirst : List ClientId → ClientId → List ClientId
  | [], _ => []
  | x :: xs, cid => if x = cid then xs else x :: removeFirst xs cid

/-- Disconnect cleanup (`finally`, lines 105–112): delete the identifier
from the Client Registry, then `self.subscriptions[topic].remove(client_id)`
(first occurrence) for every topic whose list contains it. -/
def disconnectCleanup (st : BrokerState) (cid : ClientId) : BrokerState :=
  { st with
    clients := st.clients.filter (fun c => c ≠ cid)
    subscriptions := st.subscriptions.map (fun p => (p.1, removeFirst p.2 cid)) }

/-- Outbound PUBLISH bytes (lines 124–140): `0x30`, the remaining-length
byte `2 + len(topic) + len(payload)`, the big-endian topic length, the topic
bytes, the payload bytes. -/
def encodePublishBytes (topic payload : Bytes) : Bytes :=
  [0x30, 2 + topic.length + payload.length,
   topic.length / 256 % 256, topic.length % 256] ++ topic ++ payload

/-- Outbound PUBLISH encode: `bytes([remaining_length])` raises `ValueError`
when the remaining length exceeds 255 (and `struct.pack` would raise first
for a topic longer than 65535 bytes, which forces the same bound), so the
encode step fails exactly when `2 + len(topic) + len(payload) > 255`. -/
def encodePublish (topic payload : Bytes) : Option Bytes :=
  if 2 + topic.length + payload.length ≤ 255 then
    some (encodePublishBytes topic payload)
  else none

/-- One fan-out pass over a subscriber list (lines 119–146).  `failing`
says which client streams raise on write (caught and logged, line 145–146).
A subscriber absent from the registry is skipped.  An encode failure is NOT
inside the `try`, so it escapes `forward_message` (`none`). -/
def fanOut (failing : ClientId → Bool) (clients : List ClientId)
    (topic payload : Bytes) : List ClientId → Option (List OutEvent)
  | [] => some []
  | cid :: rest =>
    if cid ∈ clients then
      match encodePublish topic payload with
      | none => none
      | some pkt =>
        match fanOut failing clients topic payload rest with
        | none => none
        | some evs =>
          some ((if failing cid then OutEvent.failLog cid
                 else OutEvent.write cid pkt) :: evs)
    else fanOut failing clients topic payload rest

/-- `forward_message` (lines 116–146): exact-match directory lookup; a miss
is a silent no-op; otherwise fan out over the entry in list order. -/
def forwardMessage (failing : ClientId → Bool) (st : BrokerState)
    (topic payload : Bytes) : Option (List OutEvent) :=
  match lookupSubs st.subscriptions topic with
  | none => some []
  | some subs => fanOut failing st.clients topic payload subs

/-- Whether one byte is a UTF-8 continuation byte (`0x80`–`0xBF`). -/
def isUtf8Cont (b : Nat) : Bool := decide (0x80 ≤ b ∧ b ≤ 0xBF)

/-- Success condition of Python's strict `bytes.decode('utf-8')` applied to
topic bytes (source lines 55 and 88): RFC 3629 well-formed UTF-8 — ASCII;
two-byte sequences with lead `0xC2`–`0xDF` (leads `0xC0`/`0xC1` are
overlong, invalid); three-byte sequences excluding overlong forms (`0xE0`
requires second byte `0xA0`–`0xBF`) and surrogates (`0xED` allows only
`0x80`–`0x9F`); four-byte sequences excluding overlong forms (`0xF0`
requires `0x90`–`0xBF`) and code points above `U+10FFFF` (`0xF4` allows
only `0x80`–`0x8F`; leads above `0xF4` invalid); truncated sequences and
stray continuation bytes invalid. -/
def isValidUtf8 : Bytes → Bool
  | [] => true
  | b :: rest =>
    if b ≤ 0x7F then isValidUtf8 rest
    else if 0xC2 ≤ b ∧ b ≤ 0xDF then
      match rest with
      | c1 :: rest1 => isUtf8Cont c1 && isValidUtf8 rest1
      | [] => false
    else if 0xE0 ≤ b ∧ b ≤ 0xEF then
      match rest with
      | c1 :: c2 :: rest2 =>
        (if b = 0xE0 then decide (0xA0 ≤ c1 ∧ c1 ≤ 0xBF)
         else if b = 0xED then decide (0x80 ≤ c1 ∧ c1 ≤ 0x9F)
         else isUtf8Cont c1) && isUtf8Cont c2 && isValidUtf8 rest2
      | _ => false
    else if 0xF0 ≤ b ∧ b ≤ 0xF4 then
      match rest with
      | c1 :: c2 :: c3 :: rest3 =>
        (if b = 0xF0 then decide (0x90 ≤ c1 ∧ c1 ≤ 0xBF)
         else if b = 0xF4 then decide (0x80 ≤ c1 ∧ c1 ≤ 0x8F)
         else isUtf8Cont c1) && isUtf8Cont c2 && isUtf8Cont c3 &&
          isValidUtf8 rest3
      | _ => false
    else false

/-- Dispatch of one decoded packet by `handle_client` (lines 43–99).
`ptype` is the decoded 4-bit type code, `body` the `remaining_length` bytes
read for it.  A `struct.unpack` on fewer than two bytes raises, as does
`.decode('utf-8')` on ill-formed topic bytes (line 55, before the counter
increment; line 88, after the SUBACK but before the directory append);
the session-level `except` turns a raise into the cleanup path
(`closed := true`). -/
def handlePacket (failing : ClientId → Bool) (st : BrokerState)
    (cid : ClientId) (ptype : Nat) (body : Bytes) : StepResult :=
  if ptype = 1 then
    -- CONNECT: unconditional CONNACK, then register the writer.
    ⟨{ st with clients := registerClient st.clients cid },
     [OutEvent.write cid connackBytes], false⟩
  else if ptype = 3 then
    -- PUBLISH: topic length, topic, payload; count; forward.
    match body with
    | b0 :: b1 :: rest =>
      let tlen := b0 * 256 + b1
      let topic := rest.take tlen
      if isValidUtf8 topic then
        let message := rest.drop tlen
        let st' := { st with messageCount := st.messageCount + 1 }
        match forwardMessage failing st' topic message with
        | some evs => ⟨st', evs, false⟩
        | none => ⟨st', [], true⟩
      else ⟨st, [], true⟩
    | _ => ⟨st, [], true⟩
  else if ptype = 8 then
    -- SUBSCRIBE: SUBACK first (lines 79–83), then store the subscription.
    match body with
    | b0 :: b1 :: rest =>
      let suback := OutEvent.write cid (subackBytes (b0 * 256 + b1))
      match rest with
      | c0 :: c1 :: rest2 =>
        let topic := rest2.take (c0 * 256 + c1)
        if isValidUtf8 topic then
          ⟨{ st with subscriptions := subAppend st.subscriptions topic cid },
           [suback], false⟩
        else ⟨st, [suback], true⟩
      | _ => ⟨st, [suback], true⟩
    | _ => ⟨st, [], true⟩
  else if ptype = 12 then
    -- PINGREQ: PINGRESP.
    ⟨st, [OutEvent.write cid pingrespBytes], false⟩
  else
    -- Unhandled type: body already consumed, nothing else happens.
    ⟨st, [], false⟩

/-- Number of successful writes delivered to `cid` in an event list. -/
def countWritesTo (cid : ClientId) : List OutEvent → Nat
  | [] => 0
  | OutEvent.write d _ :: rest => (if d = cid then 1 else 0) + countWritesTo cid rest
  | OutEvent.failLog _ :: rest => countWritesTo cid rest

/-- Number of occurrences of a client id in a subscriber list. -/
def countOcc : List ClientId → ClientId → Nat
  | [], _ => 0
  | x :: xs, cid => (if x = cid then 1 else 0) + countOcc xs cid

theorem countOcc_append_singleton (l : List ClientId) (cid : ClientId) :
    countOcc (l ++ [cid]) cid = countOcc l cid + 1 := by
  induction l with
  | nil => simp [countOcc]
  | cons x xs ih => simp [countOcc, ih]; omega

theorem countOcc_eq_zero (l : List ClientId) (cid : ClientId) :
    countOcc l cid = 0 ↔ cid ∉ l := by
  induction l with
  | nil => simp [countOcc]
  | cons x xs ih =>
    by_cases hx : x = cid
    · subst hx; simp [countOcc]
    · simp [countOcc, hx, ih]
      intro h
      exact fun hh => hx hh.symm

theorem removeFirst_countOcc (l : List ClientId) (cid : ClientId) :
    countOcc (removeFirst l cid) cid = countOcc l cid - 1 := by
  induction l with
  | nil => simp [removeFirst, countOcc]
  | cons x xs ih =>
    by_cases hx : x = cid
    · subst hx; simp [removeFirst, countOcc]
    · simp [removeFirst, countOcc, hx, ih]

theorem removeFirst_not_mem (l : List ClientId) (cid : ClientId)
    (h : countOcc l cid ≤ 1) : cid ∉ removeFirst l cid := by
  induction l with
  | nil => simp [removeFirst]
  | cons x xs ih =>
    by_cases hx : x = cid
    · subst hx
      simp [countOcc] at h
      simp [removeFirst]
      rw [← countOcc_eq_zero]
      omega
    · simp [countOcc, hx] at h
      simp [removeFirst, hx]
      refine ⟨fun hh => hx hh.symm, ih (by omega)⟩

theorem lookupSubs_subAppend (subs : List (Bytes × List ClientId))
    (topic : Bytes) (cid : ClientId) :
    lookupSubs (subAppend subs topic cid) topic =
      some ((lookupSubs subs topic).getD [] ++ [cid]) := by
  induction subs with
  | nil => simp [subAppend, lookupSubs]
  | cons p rest ih =>
    obtain ⟨t, l⟩ := p
    by_cases ht : t = topic
    · subst ht; simp [subAppend, lookupSubs]
    · simp [subAppend, lookupSubs, ht, ih]

theorem fanOut_eq (failing : ClientId → Bool) (clients : List ClientId)
    (topic payload : Bytes) (subs : List ClientId)
    (hlen : 2 + topic.length + payload.length ≤ 255) :
    fanOut failing clients topic payload subs =
      some (subs.filterMap (fun c =>
        if c ∈ clients then
          some (if failing c then OutEvent.failLog c
                else OutEvent.write c (encodePublishBytes topic payload))
        else none)) := by
  induction subs with
  | nil => simp [fanOut]
  | cons c rest ih =>
    by_cases hc : c ∈ clients
    · simp [fanOut, hc, encodePublish, hlen, ih, List.filterMap_cons]
    · simp [fanOut, hc, ih, List.filterMap_cons]

theorem countWritesTo_deliver (clients : List ClientId) (cid : ClientId)
    (failing : ClientId → Bool) (pkt : Bytes) (hc : cid ∈ clients)
    (hf : failing cid = false) (subs : List ClientId) :
    countWritesTo cid (subs.filterMap (fun c =>
      if c ∈ clients then
        some (if failing c then OutEvent.failLog c else OutEvent.write c pkt)
      else none)) = countOcc subs cid := by
  induction subs with
  | nil => simp [countWritesTo, countOcc]
  | cons c rest ih =>
    by_cases hcc : c = cid
    · subst hcc
      simp [List.filterMap_cons, hc, hf, countWritesTo, countOcc, ih]
    · by_cases hm : c ∈ clients
      · by_cases hfc : failing c
        · simp [List.filterMap_cons, hm, hfc, countWritesTo, countOcc, hcc, ih]
        · simp [List.filterMap_cons, hm, hfc, countWritesTo, countOcc, hcc, ih]
      · simp [List.filterMap_cons, hm, countWritesTo, countOcc, hcc, ih]

theorem fanOut_no_write_unregistered (failing : ClientId → Bool)
    (clients : List ClientId) (topic payload : Bytes) (subs : List ClientId)
    (cid : ClientId) (hc : cid ∉ clients) :
    countWritesTo cid ((fanOut failing clients topic payload subs).getD []) = 0 := by
  induction subs with
  | nil => simp [fanOut, countWritesTo]
  | cons c rest ih =>
    by_cases hm : c ∈ clients
    · have hne : c ≠ cid := fun h => hc (h ▸ hm)
      cases hpk : encodePublish topic payload with
      | none => simp [fanOut, hm, hpk, countWritesTo]
      | some pkt =>
        cases hrest : fanOut failing clients topic payload rest with
        | none => simp [fanOut, hm, hpk, hrest, countWritesTo]
        | some evs =>
          rw [hrest] at ih
          by_cases hfc : failing c
          · simp [fanOut, hm, hpk, hrest, hfc, countWritesTo]
            simpa using ih
          · simp [fanOut, hm, hpk, hrest, hfc, countWritesTo, hne]
            simpa using ih
    · simp only [fanOut, hm, if_neg]
      exact ih

theorem forward_count_registered (st : BrokerState) (topic payload : Bytes)
    (cid : ClientId) (hc : cid ∈ st.clients)
    (hlen : 2 + topic.length + payload.length ≤ 255) :
    countWritesTo cid
        ((forwardMessage (fun _ => false) st topic payload).getD []) =
      countOcc ((lookupSubs st.subscriptions topic).getD []) cid := by
  cases hl : lookupSubs st.subscriptions topic with
  | none => simp [forwardMessage, hl, countWritesTo, countOcc]
  | some subs =>
    simp only [forwardMessage, hl]
    rw [fanOut_eq _ _ _ _ _ hlen]
    simpa using countWritesTo_deliver st.clients cid (fun _ => false)
      (encodePublishBytes topic payload) hc rfl subs

theorem forward_count_unregistered (failing : ClientId → Bool)
    (st : BrokerState) (topic payload : Bytes) (cid : ClientId)
    (hc : cid ∉ st.clients) :
    countWritesTo cid ((forwardMessage failing st topic payload).getD []) = 0 := by
  cases hl : lookupSubs st.subscriptions topic with
  | none => simp [forwardMessage, hl, countWritesTo]
  | some subs =>
    simp only [forwardMessage, hl]
    exact fanOut_no_write_unregistered failing st.clients topic payload subs cid hc

/-- C1 counterexample: a fixed header declaring remaining length 130
(first byte `0x30`) is NOT rejected by the decoder — decoding succeeds and
yields 130 verbatim as the subsequent byte count, refuting the claimed
explicit-rejection outcome (which would be `none`). -/
theorem C1_counterexample :
    decodeFixedHeader [48, 130] = some (3, 130) ∧
    decodeFixedHeader [48, 130] ≠ none := by
  refine ⟨rfl, ?_⟩
  simp [decodeFixedHeader]

/-- C1 (amended): for every inbound fixed header whose remaining-length
byte exceeds 127, the decoder uses the value verbatim as the subsequent
byte count; there is no rejection path. -/
theorem C1_amended (b0 b1 : Nat) (h : 127 < b1) :
    decodeFixedHeader [b0, b1] = some (b0 / 16, b1) := rfl

/-- C1 amended witness at header bytes `[48, 130]`. -/
theorem C1_amended_witness :
    127 < 130 ∧ decodeFixedHeader [48, 130] = some (3, 130) :=
  ⟨by decide, C1_amended 48 130 (by decide)⟩

/-- C2 counterexample: client `"c"` subscribed twice to topic `[116]`;
after its disconnect cleanup the Registry is empty but the Directory entry
for `[116]` still contains an occurrence of `"c"` — `list.remove` strips
only the first occurrence. -/
theorem C2_counterexample :
    (disconnectCleanup ⟨["c"], [([116], ["c", "c"])], 0⟩ "c").clients = [] ∧
    (disconnectCleanup ⟨["c"], [([116], ["c", "c"])], 0⟩ "c").subscriptions
      = [([116], ["c"])] ∧
    "c" ∈ (disconnectCleanup ⟨["c"], [([116], ["c", "c"])], 0⟩
        "c").subscriptions.head!.2 := by
  refine ⟨rfl, rfl, ?_⟩
  simp [disconnectCleanup, removeFirst]

/-- C2 (amended): after a session's disconnect cleanup completes, its
identifier is absent from the Client Registry, and every Subscription
Directory entry has exactly its FIRST occurrence of the identifier removed;
hence an entry in which the session occurred at most once no longer
references it, while a session that subscribed to the same topic more than
once leaves residual occurrences behind. -/
theorem C2_amended (st : BrokerState) (cid : ClientId) :
    cid ∉ (disconnectCleanup st cid).clients ∧
    (disconnectCleanup st cid).subscriptions
      = st.subscriptions.map (fun p => (p.1, removeFirst p.2 cid)) ∧
    (∀ l : List ClientId, countOcc (removeFirst l cid) cid = countOcc l cid - 1) ∧
    (∀ l : List ClientId, countOcc l cid ≤ 1 → cid ∉ removeFirst l cid) := by
  refine ⟨?_, rfl, fun l => removeFirst_countOcc l cid,
    fun l h => removeFirst_not_mem l cid h⟩
  simp [disconnectCleanup, List.mem_filter]

/-- C2 amended witness at a concrete one-subscription state. -/
theorem C2_amended_witness :
    "c" ∉ (disconnectCleanup ⟨["c"], [([116], ["c"])], 0⟩ "c").clients ∧
    countOcc ["c"] "c" ≤ 1 ∧ "c" ∉ removeFirst ["c"] "c" :=
  ⟨(C2_amended ⟨["c"], [([116], ["c"])], 0⟩ "c").1, by decide,
   (C2_amended ⟨["c"], [([116], ["c"])], 0⟩ "c").2.2.2 ["c"] (by decide)⟩

/-- C8: every CONNECT packet, whatever its body bytes, is answered with
exactly one CONNACK — the fixed four bytes `0x20 0x02 0x00 0x00`
(session-present 0, return-code 0) — the session stays open, and the only
state change is registering the client; there is no rejection path. -/
theorem C8 (failing : ClientId → Bool) (st : BrokerState) (cid : ClientId)
    (body : Bytes) :
    (handlePacket failing st cid 1 body).events
      = [OutEvent.write cid [0x20, 0x02, 0x00, 0x00]] ∧
    (handlePacket failing st cid 1 body).closed = false ∧
    (handlePacket failing st cid 1 body).state
      = { st with clients := registerClient st.clients cid } :=
  ⟨rfl, rfl, rfl⟩

/-- C10: an inbound packet whose type code is none of CONNECT (1),
PUBLISH (3), SUBSCRIBE (8), PINGREQ (12) produces no reply, leaves the
Registry, Directory and message counter unchanged, and the session remains
open. -/
theorem C10 (failing : ClientId → Bool) (st : BrokerState) (cid : ClientId)
    (ptype : Nat) (body : Bytes) (h1 : ptype ≠ 1) (h3 : ptype ≠ 3)
    (h8 : ptype ≠ 8) (h12 : ptype ≠ 12) :
    handlePacket failing st cid ptype body = ⟨st, [], false⟩ := by
  simp [handlePacket, h1, h3, h8, h12]

/-- C10 witness at type code 5 (an unsupported type). -/
theorem C10_witness :
    handlePacket (fun _ => false) ⟨[], [], 0⟩ "c" 5 [1, 2, 3]
      = ⟨⟨[], [], 0⟩, [], false⟩ :=
  C10 (fun _ => false) ⟨[], [], 0⟩ "c" 5 [1, 2, 3]
    (by decide) (by decide) (by decide) (by decide)

/-- C3: a publish to topic `T` produces, in Directory list (insertion)
order, one outbound PUBLISH to exactly those subscriber occurrences of `T`
still present in the Client Registry, and the outbound packet carries the
published topic bytes and payload bytes verbatim after a 4-byte header. -/
theorem C3 (st : BrokerState) (topic payload : Bytes) (subs : List ClientId)
    (hl : lookupSubs st.subscriptions topic = some subs)
    (hlen : 2 + topic.length + payload.length ≤ 255) :
    forwardMessage (fun _ => false) st topic payload =
      some (subs.filterMap (fun c =>
        if c ∈ st.clients then
          some (OutEvent.write c (encodePublishBytes topic payload))
        else none)) ∧
    encodePublishBytes topic payload =
      [0x30, 2 + topic.length + payload.length,
       topic.length / 256 % 256, topic.length % 256] ++ topic ++ payload := by
  constructor
  · simp only [forwardMessage, hl]
    rw [fanOut_eq _ _ _ _ _ hlen]
    simp
  · rfl

/-- C3 witness: one registered subscriber of topic `[116]` receives the
encoded packet for payload `[55]`. -/
theorem C3_witness :
    lookupSubs [([116], ["a"])] [116] = some ["a"] ∧
    forwardMessage (fun _ => false) ⟨["a"], [([116], ["a"])], 0⟩ [116] [55]
      = some [OutEvent.write "a" [48, 4, 0, 1, 116, 55]] := by
  refine ⟨rfl, ?_⟩
  have h := (C3 ⟨["a"], [([116], ["a"])], 0⟩ [116] [55] ["a"] rfl
    (by decide)).1
  rw [h]
  rfl

/-- C4: during fan-out, an identifier absent from the Registry is skipped
without error; a write failure yields a logged-failure event and does not
prevent delivery attempts to the remaining subscribers of the same pass;
a topic with no Directory entry yields zero deliveries and no error; and a
whole PUBLISH step never changes the Directory or the Registry. -/
theorem C4 (failing : ClientId → Bool) (st : BrokerState) (cid : ClientId)
    (topic payload body : Bytes)
    (hlen : 2 + topic.length + payload.length ≤ 255) :
    (lookupSubs st.subscriptions topic = none →
      forwardMessage failing st topic payload = some []) ∧
    (∀ subs, lookupSubs st.subscriptions topic = some subs →
      forwardMessage failing st topic payload =
        some (subs.filterMap (fun c =>
          if c ∈ st.clients then
            some (if failing c then OutEvent.failLog c
                  else OutEvent.write c (encodePublishBytes topic payload))
          else none))) ∧
    (handlePacket failing st cid 3 body).state.subscriptions
      = st.subscriptions ∧
    (handlePacket failing st cid 3 body).state.clients = st.clients := by
  have hpres : (handlePacket failing st cid 3 body).state.subscriptions
        = st.subscriptions ∧
      (handlePacket failing st cid 3 body).state.clients = st.clients := by
    cases body with
    | nil => exact ⟨rfl, rfl⟩
    | cons b0 rest =>
      cases rest with
      | nil => exact ⟨rfl, rfl⟩
      | cons b1 rest2 =>
        cases hv : isValidUtf8 (rest2.take (b0 * 256 + b1)) with
        | false => simp [handlePacket, hv]
        | true =>
          cases hfm : forwardMessage failing
              { st with messageCount := st.messageCount + 1 }
              (rest2.take (b0 * 256 + b1)) (rest2.drop (b0 * 256 + b1)) with
          | none => simp [handlePacket, hv, hfm]
          | some evs => simp [handlePacket, hv, hfm]
  refine ⟨fun h => by simp [forwardMessage, h], fun subs h => ?_,
    hpres.1, hpres.2⟩
  simp only [forwardMessage, h]
  exact fanOut_eq _ _ _ _ _ hlen

/-- C4 witness: subscribers `"a"` (healthy), `"b"` (failing stream) and
`"x"` (not registered): `"a"` gets the packet, `"b"` a logged failure,
`"x"` is skipped, no abort. -/
theorem C4_witness :
    forwardMessage (fun c => c == "b")
        ⟨["a", "b"], [([116], ["a", "b", "x"])], 0⟩ [116] [55]
      = some [OutEvent.write "a" [48, 4, 0, 1, 116, 55],
              OutEvent.failLog "b"] := by
  have h := (C4 (fun c => c == "b") ⟨["a", "b"], [([116], ["a", "b", "x"])], 0⟩
    "p" [116] [55] [] (by decide)).2.1 ["a", "b", "x"] rfl
  rw [h]
  rfl

set_option maxRecDepth 10000 in
/-- C5 counterexample: the broker accepts an inbound PUBLISH with a
200-byte body (declared remaining length 200 is read verbatim), and the
outbound encoder then emits remaining-length byte 200, which exceeds the
claimed 0–127 range. -/
theorem C5_counterexample :
    (handlePacket (fun _ => false) ⟨["s"], [([97], ["s"])], 0⟩ "p" 3
        (0 :: 1 :: 97 :: List.replicate 197 50)).events
      = [OutEvent.write "s" ([48, 200, 0, 1, 97] ++ List.replicate 197 50)] ∧
    ¬ (200 : Nat) ≤ 127 := by
  exact ⟨rfl, by decide⟩

/-- C5 (amended): for every message the broker accepted (inbound body of
at most 255 bytes, hence topic + payload of at most 253 bytes), the
outbound PUBLISH encoder never fails and produces a single remaining-length
byte equal to `2 + topic length + payload length`, which is at most 255 —
the cap is the one-byte ceiling 255, not 127. -/
theorem C5_amended (b0 b1 : Nat) (rest : Bytes) (hrest : rest.length ≤ 253) :
    encodePublish (rest.take (b0 * 256 + b1)) (rest.drop (b0 * 256 + b1))
      = some (encodePublishBytes (rest.take (b0 * 256 + b1))
          (rest.drop (b0 * 256 + b1))) ∧
    (encodePublishBytes (rest.take (b0 * 256 + b1))
        (rest.drop (b0 * 256 + b1))).get? 1
      = some (2 + (rest.take (b0 * 256 + b1)).length
          + (rest.drop (b0 * 256 + b1)).length) ∧
    2 + (rest.take (b0 * 256 + b1)).length
        + (rest.drop (b0 * 256 + b1)).length ≤ 255 := by
  have hsum : (rest.take (b0 * 256 + b1)).length
      + (rest.drop (b0 * 256 + b1)).length = rest.length := by
    rw [← List.length_append, List.take_append_drop]
  have hle : 2 + (rest.take (b0 * 256 + b1)).length
      + (rest.drop (b0 * 256 + b1)).length ≤ 255 := by omega
  refine ⟨?_, rfl, hle⟩
  unfold encodePublish
  rw [if_pos hle]

/-- C5 amended witness at body remainder `[1, 2, 3]` with topic length 1. -/
theorem C5_amended_witness :
    ([1, 2, 3] : Bytes).length ≤ 253 ∧
    encodePublish (([1, 2, 3] : Bytes).take 1) (([1, 2, 3] : Bytes).drop 1)
      = some [48, 5, 0, 1, 1, 2, 3] := by
  refine ⟨by decide, ?_⟩
  have h := (C5_amended 0 1 [1, 2, 3] (by decide)).1
  rw [h]
  rfl

/-- C7: a SUBSCRIBE packet whose topic filter is well-formed UTF-8 is
handled identically in every session state — the dispatch has no registry
gate, so the whole broker state other than the Directory (in particular the
Client Registry) is untouched — the identifier is appended to the Directory
entry of the decoded topic filter, and exactly one SUBACK echoing the
packet identifier from the first two body bytes with granted QoS 0 is
written. -/
theorem C7 (failing : ClientId → Bool) (st : BrokerState) (cid : ClientId)
    (b0 b1 c0 c1 : Nat) (tail : Bytes) (hb0 : b0 ≤ 255) (hb1 : b1 ≤ 255)
    (hvalid : isValidUtf8 (tail.take (c0 * 256 + c1)) = true) :
    (handlePacket failing st cid 8 (b0 :: b1 :: c0 :: c1 :: tail)).events
      = [OutEvent.write cid [0x90, 0x03, b0, b1, 0x00]] ∧
    (handlePacket failing st cid 8 (b0 :: b1 :: c0 :: c1 :: tail)).closed
      = false ∧
    lookupSubs (handlePacket failing st cid 8
        (b0 :: b1 :: c0 :: c1 :: tail)).state.subscriptions
        (tail.take (c0 * 256 + c1))
      = some ((lookupSubs st.subscriptions
          (tail.take (c0 * 256 + c1))).getD [] ++ [cid]) ∧
    (handlePacket failing st cid 8
        (b0 :: b1 :: c0 :: c1 :: tail)).state.clients = st.clients := by
  have hhi : (b0 * 256 + b1) / 256 % 256 = b0 := by omega
  have hlo : (b0 * 256 + b1) % 256 = b1 := by omega
  have hstep : handlePacket failing st cid 8 (b0 :: b1 :: c0 :: c1 :: tail)
      = ⟨{ st with
            subscriptions :=
              subAppend st.subscriptions (tail.take (c0 * 256 + c1)) cid },
         [OutEvent.write cid (subackBytes (b0 * 256 + b1))], false⟩ := by
    simp [handlePacket, hvalid]
  refine ⟨?_, by rw [hstep], ?_, by rw [hstep]⟩
  · rw [hstep]
    show [OutEvent.write cid (subackBytes (b0 * 256 + b1))] = _
    rw [subackBytes, hhi, hlo]
  · rw [hstep]
    exact lookupSubs_subAppend _ _ _

/-- C7 witness: SUBSCRIBE with packet id 7 for topic `[116]` from a session
that never sent CONNECT (empty Registry). -/
theorem C7_witness :
    (handlePacket (fun _ => false) ⟨[], [], 0⟩ "c" 8
        [0, 7, 0, 1, 116, 120]).events
      = [OutEvent.write "c" [0x90, 0x03, 0, 7, 0x00]] ∧
    lookupSubs (handlePacket (fun _ => false) ⟨[], [], 0⟩ "c" 8
        [0, 7, 0, 1, 116, 120]).state.subscriptions [116] = some ["c"] := by
  have h := C7 (fun _ => false) ⟨[], [], 0⟩ "c" 0 7 0 1 [116, 120]
    (by decide) (by decide) (by decide)
  exact ⟨h.1, h.2.2.1⟩

/-- C6: after one session sends the same SUBSCRIBE packet — with a
well-formed UTF-8 topic filter — twice, the Directory entry for its topic
contains its identifier twice more than before, and a later publish to that
topic — while the session is registered — is delivered to it exactly those
two additional times (starting from a state where it did not yet occur,
exactly twice). -/
theorem C6 (failing : ClientId → Bool) (st : BrokerState) (cid : ClientId)
    (b0 b1 c0 c1 : Nat) (tail payload topic : Bytes)
    (htopic : topic = tail.take (c0 * 256 + c1))
    (hvalid : isValidUtf8 topic = true)
    (hlen : 2 + topic.length + payload.length ≤ 255) :
    countOcc ((lookupSubs (handlePacket failing
        (handlePacket failing st cid 8 (b0 :: b1 :: c0 :: c1 :: tail)).state
        cid 8 (b0 :: b1 :: c0 :: c1 :: tail)).state.subscriptions
        topic).getD []) cid
      = countOcc ((lookupSubs st.subscriptions topic).getD []) cid + 2 ∧
    ∀ (clients2 : List ClientId) (m : Nat), cid ∈ clients2 →
      countWritesTo cid ((forwardMessage (fun _ => false)
          ⟨clients2, (handlePacket failing
            (handlePacket failing st cid 8
              (b0 :: b1 :: c0 :: c1 :: tail)).state
            cid 8 (b0 :: b1 :: c0 :: c1 :: tail)).state.subscriptions, m⟩
          topic payload).getD [])
        = countOcc ((lookupSubs st.subscriptions topic).getD []) cid + 2 := by
  subst htopic
  have hstep1 : handlePacket failing st cid 8 (b0 :: b1 :: c0 :: c1 :: tail)
      = ⟨{ st with
            subscriptions :=
              subAppend st.subscriptions (tail.take (c0 * 256 + c1)) cid },
         [OutEvent.write cid (subackBytes (b0 * 256 + b1))], false⟩ := by
    simp [handlePacket, hvalid]
  have hsubs : (handlePacket failing
      (handlePacket failing st cid 8 (b0 :: b1 :: c0 :: c1 :: tail)).state
      cid 8 (b0 :: b1 :: c0 :: c1 :: tail)).state.subscriptions
      = subAppend (subAppend st.subscriptions
          (tail.take (c0 * 256 + c1)) cid)
          (tail.take (c0 * 256 + c1)) cid := by
    rw [hstep1]
    simp [handlePacket, hvalid]
  have hcount : countOcc ((lookupSubs (subAppend (subAppend st.subscriptions
      (tail.take (c0 * 256 + c1)) cid) (tail.take (c0 * 256 + c1)) cid)
      (tail.take (c0 * 256 + c1))).getD []) cid
      = countOcc ((lookupSubs st.subscriptions
          (tail.take (c0 * 256 + c1))).getD []) cid + 2 := by
    rw [lookupSubs_subAppend, lookupSubs_subAppend]
    simp only [Option.getD_some, countOcc_append_singleton]
  constructor
  · rw [hsubs]
    exact hcount
  · intro clients2 m hc
    have h := forward_count_registered
      ⟨clients2, (handlePacket failing
        (handlePacket failing st cid 8 (b0 :: b1 :: c0 :: c1 :: tail)).state
        cid 8 (b0 :: b1 :: c0 :: c1 :: tail)).state.subscriptions, m⟩
      (tail.take (c0 * 256 + c1)) payload cid hc hlen
    rw [h]
    rw [hsubs]
    exact hcount

/-- C6 witness: a fresh session subscribes twice to topic `[116]`; a
publish of payload `[55]` while it is registered is delivered twice. -/
theorem C6_witness :
    countWritesTo "c" ((forwardMessage (fun _ => false)
        ⟨["c"], (handlePacket (fun _ => false)
          (handlePacket (fun _ => false) ⟨[], [], 0⟩ "c" 8
            [0, 7, 0, 1, 116]).state
          "c" 8 [0, 7, 0, 1, 116]).state.subscriptions, 0⟩
        [116] [55]).getD []) = 2 := by
  have h := (C6 (fun _ => false) ⟨[], [], 0⟩ "c" 0 7 0 1 [116] [55] [116]
    (by decide) (by decide) (by decide)).2 ["c"] 0 (by simp)
  simpa [countOcc] using h

/-- C9: a session that sends SUBSCRIBE — with a well-formed UTF-8 topic
filter — before ever sending CONNECT lands in the Subscription Directory
but not in the Client Registry; while an identifier is absent from the
Registry, every publish fan-out performs zero successful writes to it; and
a subsequent CONNECT does register it. -/
theorem C9 (failing : ClientId → Bool) (st : BrokerState) (cid : ClientId)
    (b0 b1 c0 c1 : Nat) (tail anybody : Bytes) (hnc : cid ∉ st.clients)
    (hvalid : isValidUtf8 (tail.take (c0 * 256 + c1)) = true) :
    cid ∈ ((lookupSubs (handlePacket failing st cid 8
        (b0 :: b1 :: c0 :: c1 :: tail)).state.subscriptions
        (tail.take (c0 * 256 + c1))).getD []) ∧
    cid ∉ (handlePacket failing st cid 8
        (b0 :: b1 :: c0 :: c1 :: tail)).state.clients ∧
    (∀ (st' : BrokerState) (t p : Bytes), cid ∉ st'.clients →
      countWritesTo cid ((forwardMessage failing st' t p).getD []) = 0) ∧
    cid ∈ (handlePacket failing
        (handlePacket failing st cid 8 (b0 :: b1 :: c0 :: c1 :: tail)).state
        cid 1 anybody).state.clients := by
  have hstep : handlePacket failing st cid 8 (b0 :: b1 :: c0 :: c1 :: tail)
      = ⟨{ st with
            subscriptions :=
              subAppend st.subscriptions (tail.take (c0 * 256 + c1)) cid },
         [OutEvent.write cid (subackBytes (b0 * 256 + b1))], false⟩ := by
    simp [handlePacket, hvalid]
  refine ⟨?_, ?_,
    fun st' t p h => forward_count_unregistered failing st' t p cid h, ?_⟩
  · rw [hstep]
    show cid ∈ (lookupSubs (subAppend st.subscriptions
        (tail.take (c0 * 256 + c1)) cid) (tail.take (c0 * 256 + c1))).getD []
    rw [lookupSubs_subAppend]
    simp
  · rw [hstep]
    exact hnc
  · rw [hstep]
    show cid ∈ registerClient st.clients cid
    simp [registerClient, hnc]

/-- C9 witness: a fresh session subscribes to `[116]` without CONNECT — it
is in the Directory entry but not in the Registry. -/
theorem C9_witness :
    "c" ∈ ((lookupSubs (handlePacket (fun _ => false) ⟨[], [], 0⟩ "c" 8
        [0, 7, 0, 1, 116]).state.subscriptions [116]).getD []) ∧
    "c" ∉ (handlePacket (fun _ => false) ⟨[], [], 0⟩ "c" 8
        [0, 7, 0, 1, 116]).state.clients := by
  have h := C9 (fun _ => false) ⟨[], [], 0⟩ "c" 0 7 0 1 [116] [] (by simp)
    (by decide)
  exact ⟨h.1, h.2.1⟩

end SimpleMQTTBroker
